import Mathlib

/-!
Verification of the submission/moderation core of `bot.py`
(telegram-channel-repost-bot).

Shallow embedding conventions:
* Wall-clock time (Python `time.time()`, a real-valued number of seconds)
  is modelled as a rational `ℚ`.
* Python `//` (floor division) and `%` on reals are modelled with
  `Int.floor`; every `int(...)` call in the source is applied to a value
  that is either already floored or non-negative, so `Int.floor` is the
  faithful translation in all places it is used below.
* Python dicts keyed by integers (`pending_posts`, `user_limits`) are
  modelled as functions `Nat → Option α` with pointwise update (lookup
  and assignment are the only operations the code performs on them).
* The `media_group_collector` dict is iterated over by the cleanup task,
  so it is modelled as an insertion-ordered association list, matching
  Python dict iteration order.
* Messages the bot sends are modelled as effects/counters; the reason
  strings built by `can_suggest` are modelled as a structured value
  carrying exactly the numbers that are interpolated into the string.
* File persistence (`save_pending_posts`, `save_user_limits`) is a
  write-through of the in-memory state and is not modelled separately.
-/

/-- Python floor division `a // b` on real numbers. -/
def pyFloorDiv (a b : ℚ) : Int := Int.floor (a / b)

/-- Python modulo `a % b` on real numbers (result has the sign of `b`). -/
def pyMod (a b : ℚ) : ℚ := a - b * (Int.floor (a / b) : ℚ)

/-- Pointwise update of an integer-keyed dict. -/
def fupdate {α : Type} (m : Nat → Option α) (k : Nat) (v : α) : Nat → Option α :=
  fun k' => if k' = k then some v else m k'

/-- MAX_SUGGESTIONS_PER_DAY = 20 in bot.py. -/
def MAX_SUGGESTIONS_PER_DAY : Int := 20

/-- SUGGESTION_COOLDOWN_SECONDS = 2 in bot.py. -/
def SUGGESTION_COOLDOWN_SECONDS : ℚ := 2

/-- Post status strings used by `PendingPostsManager`. -/
inductive Status
  | pending
  | approved
  | rejected
deriving DecidableEq

/-- The seven media types the bot accepts from users. -/
inductive MediaType
  | photo
  | video
  | animation
  | video_note
  | voice
  | audio
  | document
deriving DecidableEq

/-- Structured form of the second component of `can_suggest`'s return
value. The source returns a string; the model keeps the numbers that the
source interpolates into that string (`reason.ok` stands for the empty
string returned when the user may submit). -/
inductive Reason
  | ok
  | dailyLimit (hours : Int) (minutes : Int)
  | cooldown (minutes : Int) (seconds : Int)
deriving DecidableEq

/-- One value of the `user_limits` dict of `UserLimitsManager`. -/
structure UserLimits where
  suggestions_today : Int
  last_suggestion_time : ℚ
  day_start : ℚ
  total_suggestions : Int
  approved_suggestions : Int
  rejected_suggestions : Int
deriving DecidableEq

/-- One value of the `pending_posts` dict of `PendingPostsManager`
(the record built by `add_pending_post`). -/
structure Post where
  user_id : Nat
  username : String
  media_ids : List String
  media_type : MediaType
  caption : Option String
  timestamp : ℚ
  media_group_id : Option String
  original_message_id : Option Nat
  status : Status
deriving DecidableEq

/-- UserLimitsManager.can_suggest: daily-cap check first, then cooldown.
Mirrors bot.py lines 204-228; note that no window reset happens here. -/
def can_suggest (limits : Nat → Option UserLimits) (user_id : Nat) (now : ℚ) :
    Bool × Reason :=
  match limits user_id with
  | none => (true, Reason.ok)
  | some u =>
    if u.suggestions_today ≥ MAX_SUGGESTIONS_PER_DAY then
      let seconds_until_reset : ℚ := 86400 - (now - u.day_start)
      (false, Reason.dailyLimit (pyFloorDiv seconds_until_reset 3600)
        (pyFloorDiv (pyMod seconds_until_reset 3600) 60))
    else if now - u.last_suggestion_time < SUGGESTION_COOLDOWN_SECONDS then
      let seconds_remaining : ℚ :=
        SUGGESTION_COOLDOWN_SECONDS - (now - u.last_suggestion_time)
      (false, Reason.cooldown (pyFloorDiv seconds_remaining 60)
        (Int.floor (pyMod seconds_remaining 60)))
    else
      (true, Reason.ok)

/-- UserLimitsManager.record_suggestion (bot.py lines 167-191): creates
the record on first use; otherwise resets the daily counter when the
window is older than 24h, then bumps the counters and the last time. -/
def record_suggestion (limits : Nat → Option UserLimits) (user_id : Nat) (now : ℚ) :
    Nat → Option UserLimits :=
  match limits user_id with
  | none =>
      fupdate limits user_id
        { suggestions_today := 1
          last_suggestion_time := now
          day_start := now
          total_suggestions := 1
          approved_suggestions := 0
          rejected_suggestions := 0 }
  | some u =>
      let u1 :=
        if now - u.day_start > 86400 then
          { u with suggestions_today := 1, day_start := now }
        else
          { u with suggestions_today := u.suggestions_today + 1 }
      fupdate limits user_id
        { u1 with last_suggestion_time := now
                  total_suggestions := u1.total_suggestions + 1 }

/-- UserLimitsManager.record_suggestion_result (bot.py lines 193-202):
bump the approved or rejected counter, only if the user has a record. -/
def record_suggestion_result (limits : Nat → Option UserLimits) (user_id : Nat)
    (approved : Bool) : Nat → Option UserLimits :=
  match limits user_id with
  | none => limits
  | some u =>
      if approved then
        fupdate limits user_id { u with approved_suggestions := u.approved_suggestions + 1 }
      else
        fupdate limits user_id { u with rejected_suggestions := u.rejected_suggestions + 1 }

/-- UserLimitsManager.get_user_stats (bot.py lines 230-250). The
returned Python dict is modelled as an association list in the literal
key order of the source; note the no-record branch has no
"suggestions_remaining" key. -/
def get_user_stats (limits : Nat → Option UserLimits) (user_id : Nat) :
    List (String × Int) :=
  match limits user_id with
  | none =>
      [("suggestions_today", 0), ("total_suggestions", 0),
       ("approved_suggestions", 0), ("rejected_suggestions", 0)]
  | some u =>
      let remaining := max 0 (MAX_SUGGESTIONS_PER_DAY - u.suggestions_today)
      [("suggestions_today", u.suggestions_today),
       ("suggestions_remaining", remaining),
       ("total_suggestions", u.total_suggestions),
       ("approved_suggestions", u.approved_suggestions),
       ("rejected_suggestions", u.rejected_suggestions)]

/-- PendingPostsManager.add_pending_post (bot.py lines 110-126): plain
dict assignment at `post_id`, always storing status "pending";
`timestamp` is the creation time. -/
def add_pending_post (posts : Nat → Option Post) (post_id : Nat) (user_id : Nat)
    (username : String) (media_ids : List String) (media_type : MediaType)
    (caption : Option String) (media_group_id : Option String)
    (original_message_id : Option Nat) (now : ℚ) : Nat → Option Post :=
  fupdate posts post_id
    { user_id := user_id
      username := username
      media_ids := media_ids
      media_type := media_type
      caption := caption
      timestamp := now
      media_group_id := media_group_id
      original_message_id := original_message_id
      status := Status.pending }

/-- PendingPostsManager.get_pending_post: dict lookup. -/
def get_pending_post (posts : Nat → Option Post) (post_id : Nat) : Option Post :=
  posts post_id

/-- PendingPostsManager.update_post_status (bot.py lines 132-138):
returns True and overwrites the status whenever the id is present,
regardless of the current status; returns False only for unknown ids. -/
def update_post_status (posts : Nat → Option Post) (post_id : Nat) (status : Status) :
    (Nat → Option Post) × Bool :=
  match posts post_id with
  | none => (posts, false)
  | some p => (fupdate posts post_id { p with status := status }, true)

/-- Post id generation used by both submission-creating code paths
(bot.py lines 1123 and 1398): `int(time.time() * 1000) % 1000000000`. -/
def gen_post_id (now : ℚ) : Nat := ((Int.floor (now * 1000)) % 1000000000).toNat

/-- Reviewer decision carried in the callback data prefix. -/
inductive Decision
  | approve
  | reject
deriving DecidableEq

/-- Terminal status produced by a decision. -/
def decisionStatus : Decision → Status
  | Decision.approve => Status.approved
  | Decision.reject => Status.rejected

/-- How `process_suggestion_action` reports back to the pressing admin
(via `callback_query.answer`). -/
inductive ResolveResult
  | notFound
  | alreadyResolved (s : Status)
  | resolved (d : Decision)
deriving DecidableEq

/-- Persistent state shared by the two managers. -/
structure ModState where
  posts : Nat → Option Post
  limits : Nat → Option UserLimits

/-- process_suggestion_action (bot.py lines 518-615), reduced to its
state effect: look up the post; "no longer exists" for an unknown id;
"already been {status}" when the status is not pending; otherwise set
the status, record the outcome on the submitter's quota record and, on
approve, publish once to the channel. The third component counts sends
to CHANNEL_ID (every media-type branch performs exactly one, the
watermark fallback included); transport is taken as reliable here. -/
def process_suggestion_action (st : ModState) (d : Decision) (post_id : Nat) :
    ModState × ResolveResult × Nat :=
  match get_pending_post st.posts post_id with
  | none => (st, ResolveResult.notFound, 0)
  | some p =>
    if p.status ≠ Status.pending then
      (st, ResolveResult.alreadyResolved p.status, 0)
    else
      let posts1 := (update_post_status st.posts post_id (decisionStatus d)).1
      let limits1 := record_suggestion_result st.limits p.user_id (d = Decision.approve)
      ({ posts := posts1, limits := limits1 }, ResolveResult.resolved d,
        if d = Decision.approve then 1 else 0)

/-- Per-chat transport reachability: `okMessage` is `bot.send_message`
succeeding for that chat id, `okMedia` is the media send (send_photo,
send_media_group, ...) succeeding for that chat id. -/
structure Transport where
  okMessage : Nat → Bool
  okMedia : Nat → Bool

/-- One message actually delivered to an admin while dispatching a
suggestion for review. -/
inductive Delivery
  | info (admin : Nat)
  | media (admin : Nat)
  | fallbackNote (admin : Nat)
deriving DecidableEq

/-- send_post_to_admin (bot.py lines 860-960): the info message is sent
outside any try/except, so its failure raises out of the function; the
media send is wrapped in try/except whose handler sends a fallback
message (which itself may raise). `Except.error` models an uncaught
exception. -/
def send_post_to_admin (tr : Transport) (admin_id : Nat) :
    Except Unit (List Delivery) :=
  if tr.okMessage admin_id = false then
    Except.error ()
  else if tr.okMedia admin_id then
    Except.ok [Delivery.info admin_id, Delivery.media admin_id]
  else if tr.okMessage admin_id then
    Except.ok [Delivery.info admin_id, Delivery.fallbackNote admin_id]
  else
    Except.error ()

/-- The reviewer-notification loop of handle_user_suggestion (bot.py
lines 1425-1426) and handle_complete_media_group (lines 1155-1156):
`for admin_id in admin_ids: await send_post_to_admin(...)` with no
try/except, so an exception aborts the remaining iterations and
propagates out of the handler. -/
def dispatch_to_admins (tr : Transport) : List Nat → Except Unit (List Delivery)
  | [] => Except.ok []
  | a :: rest =>
    match send_post_to_admin tr a with
    | Except.error e => Except.error e
    | Except.ok ds =>
      match dispatch_to_admins tr rest with
      | Except.error e => Except.error e
      | Except.ok ds2 => Except.ok (ds ++ ds2)

/-- The single-media tail of handle_user_suggestion (bot.py lines
1388-1409): gate on can_suggest, then record the suggestion, generate a
time-derived post id and store the post as pending. Returns the updated
state, whether the submission was admitted, and the refusal reason. -/
def handle_user_suggestion_single (st : ModState) (user_id : Nat) (username : String)
    (media_type : MediaType) (file_id : String) (caption : Option String)
    (message_id : Nat) (now : ℚ) : ModState × Bool × Reason :=
  let cs := can_suggest st.limits user_id now
  if cs.1 then
    let limits1 := record_suggestion st.limits user_id now
    let post_id := gen_post_id now
    let posts1 := add_pending_post st.posts post_id user_id username [file_id]
      media_type caption none (some message_id) now
    ({ posts := posts1, limits := limits1 }, true, cs.2)
  else
    (st, false, cs.2)

/-- One value of the `media_group_collector` dict (bot.py lines
1067-1076). `complete` is the finalized flag. -/
structure GroupBuf where
  user_id : Nat
  username : String
  media_ids : List String
  media_type : MediaType
  caption : Option String
  last_update : ℚ
  first_message_id : Option Nat
  complete : Bool
deriving DecidableEq

/-- Lookup in the insertion-ordered collector. -/
def clookup (col : List (String × GroupBuf)) (g : String) : Option GroupBuf :=
  match col with
  | [] => none
  | (k, v) :: r => if k = g then some v else clookup r g

/-- Python dict assignment: replace in place when the key exists,
append at the end otherwise. -/
def cinsert (col : List (String × GroupBuf)) (g : String) (v : GroupBuf) :
    List (String × GroupBuf) :=
  match col with
  | [] => [(g, v)]
  | (k, w) :: r => if k = g then (k, v) :: r else (k, w) :: cinsert r g v

/-- Python `del` on the collector. -/
def cremove (col : List (String × GroupBuf)) (g : String) :
    List (String × GroupBuf) :=
  match col with
  | [] => []
  | (k, v) :: r => if k = g then r else (k, v) :: cremove r g

/-- process_media_group (bot.py lines 1060-1090): create the buffer on
the first part, append the file id only when it is not already buffered,
refresh `last_update`, and keep the first caption seen. (Python tests
the caption for truthiness; an empty-string caption is not distinguished
from an absent one by any claim, so captions are `Option String` here.)
Returns the updated collector together with the group's buffer, which
the caller inspects. -/
def process_media_group (col : List (String × GroupBuf)) (user_id : Nat)
    (username : String) (media_group_id : String) (media_type : MediaType)
    (file_id : String) (message_id : Option Nat) (caption : Option String)
    (now : ℚ) : List (String × GroupBuf) × GroupBuf :=
  let gd : GroupBuf :=
    match clookup col media_group_id with
    | none =>
        { user_id := user_id
          username := username
          media_ids := []
          media_type := media_type
          caption := caption
          last_update := now
          first_message_id := message_id
          complete := false }
    | some g => g
  let gd1 :=
    if file_id ∈ gd.media_ids then gd
    else { gd with media_ids := gd.media_ids ++ [file_id] }
  let gd2 := { gd1 with last_update := now }
  let gd3 :=
    if caption.isSome ∧ gd2.caption = none then { gd2 with caption := caption }
    else gd2
  (cinsert col media_group_id gd3, gd3)

/-- Full state touched by the media-group flow. -/
structure AggState where
  collector : List (String × GroupBuf)
  posts : Nat → Option Post
  limits : Nat → Option UserLimits

/-- Outcome of one invocation of `handle_complete_media_group`. -/
inductive HandleResult
  | absent
  | alreadyComplete
  | limitBlocked (r : Reason)
  | processed (post_id : Nat)
deriving DecidableEq

/-- handle_complete_media_group (bot.py lines 1094-1159): return if the
group is unknown or already finalized; set the finalized flag; re-check
the rate limit (returning without deleting the buffer when it fails);
otherwise charge the quota, create one pending post from the buffered
ids, and delete the buffer. The flag is set before the first await of
the source function, so the model's sequential semantics is faithful to
the cooperative scheduler. -/
def handle_complete_media_group (st : AggState) (media_group_id : String) (now : ℚ) :
    AggState × HandleResult :=
  match clookup st.collector media_group_id with
  | none => (st, HandleResult.absent)
  | some gd =>
    if gd.complete then (st, HandleResult.alreadyComplete)
    else
      let col1 := cinsert st.collector media_group_id { gd with complete := true }
      let cs := can_suggest st.limits gd.user_id now
      if cs.1 = false then
        ({ st with collector := col1 }, HandleResult.limitBlocked cs.2)
      else
        let limits1 := record_suggestion st.limits gd.user_id now
        let post_id := gen_post_id now
        let posts1 := add_pending_post st.posts post_id gd.user_id gd.username
          gd.media_ids gd.media_type gd.caption (some media_group_id)
          gd.first_message_id now
        ({ collector := cremove col1 media_group_id
           posts := posts1
           limits := limits1 }, HandleResult.processed post_id)

/-- One pass of media_group_cleanup_task (bot.py lines 1163-1179): first
collect the ids of the groups that are not finalized and quiet for more
than 2 seconds, then finalize each of them. -/
def sweep_step (st : AggState) (now : ℚ) : AggState :=
  let gids := (st.collector.filter
    (fun x => x.2.complete = false ∧ now - x.2.last_update > 2)).map (fun x => x.1)
  gids.foldl (fun s g => (handle_complete_media_group s g now).1) st

/-- An externally triggered event relevant to one media group: a part of
the group arriving through handle_user_suggestion, or one pass of the
cleanup task. -/
inductive Ev
  | groupPart (now : ℚ) (file_id : String) (caption : Option String) (message_id : Nat)
  | sweep (now : ℚ)

/-- Wall-clock time of an event. -/
def evTime : Ev → ℚ
  | Ev.groupPart now _ _ _ => now
  | Ev.sweep now => now

/-- Effect of one event on the state, for a fixed submitter and group
(the media-group branch of handle_user_suggestion, bot.py lines
1370-1386, performs no rate-limit check and only calls
process_media_group). -/
def stepEv (user_id : Nat) (username : String) (media_group_id : String)
    (media_type : MediaType) (st : AggState) (e : Ev) : AggState :=
  match e with
  | Ev.groupPart now file_id caption message_id =>
      { st with collector := (process_media_group st.collector user_id username
          media_group_id media_type file_id (some message_id) caption now).1 }
  | Ev.sweep now => sweep_step st now

/-- Run a list of events in order. -/
def runEvents (user_id : Nat) (username : String) (media_group_id : String)
    (media_type : MediaType) (st : AggState) (trace : List Ev) : AggState :=
  trace.foldl (stepEv user_id username media_group_id media_type) st

/-- The arrival times and file ids of the part events of a trace. -/
def partsOf : List Ev → List (ℚ × String)
  | [] => []
  | Ev.groupPart now file_id _ _ :: r => (now, file_id) :: partsOf r
  | Ev.sweep _ :: r => partsOf r

/-- True when the last event of the trace is a part arrival. -/
def endsWithPart : List Ev → Bool
  | [] => false
  | [Ev.groupPart _ _ _ _] => true
  | [Ev.sweep _] => false
  | _ :: e :: r => endsWithPart (e :: r)

/-- Timing discipline of a trace relative to the arrival time of the
most recent part (`none` before the first part): each part arrives less
than the 2-second quiet period after the previous one, and no cleanup
pass runs later than the quiet period after the most recent part. -/
def TraceOk : Option ℚ → List Ev → Prop
  | _, [] => True
  | none, Ev.sweep _ :: r => TraceOk none r
  | none, Ev.groupPart t _ _ _ :: r => TraceOk (some t) r
  | some tl, Ev.sweep s :: r => s - tl ≤ 2 ∧ TraceOk (some tl) r
  | some tl, Ev.groupPart t _ _ _ :: r => tl ≤ t ∧ t - tl < 2 ∧ TraceOk (some t) r

/-- Empty user_limits dict. -/
def emptyLimits : Nat → Option UserLimits := fun _ => none

/-- Empty pending_posts dict. -/
def emptyPosts : Nat → Option Post := fun _ => none

/-- A quota record of a user who reached the daily cap at time 0. -/
def cappedUser : UserLimits :=
  { suggestions_today := 20
    last_suggestion_time := 0
    day_start := 0
    total_suggestions := 20
    approved_suggestions := 0
    rejected_suggestions := 0 }

/-- user_limits holding only user 7, who is at the daily cap. -/
def limitsCapped : Nat → Option UserLimits :=
  fun u => if u = 7 then some cappedUser else none

/-- An already-approved stored post. -/
def postApproved : Post :=
  { user_id := 42
    username := "alice"
    media_ids := ["f1"]
    media_type := MediaType.photo
    caption := none
    timestamp := 100
    media_group_id := none
    original_message_id := some 5
    status := Status.approved }

/-- pending_posts holding only post 1, already approved. -/
def postsWithApproved : Nat → Option Post :=
  fun k => if k = 1 then some postApproved else none

/-- C1: the claim says a quota record whose window start is more than
24h old is treated as expired by the admission check, so a capped user
is allowed again and any daily-limit reason shows a non-negative
remaining time. The code fails this: `can_suggest` never resets the
window (the reset lives only in `record_suggestion`, which runs only
after `can_suggest` succeeds), so user 7, capped 25 hours ago, is still
refused, with a negative remaining time of -1h 0m in the reason. -/
theorem c1_can_suggest_ignores_expired_window :
    (90000 : ℚ) - cappedUser.day_start > 86400 ∧
    cappedUser.suggestions_today ≥ MAX_SUGGESTIONS_PER_DAY ∧
    can_suggest limitsCapped 7 90000 = (false, Reason.dailyLimit (-1) 0) ∧
    (-1 : Int) < 0 := by
  refine ⟨by norm_num [cappedUser], by norm_num [cappedUser, MAX_SUGGESTIONS_PER_DAY],
    ?_, by norm_num⟩
  norm_num [can_suggest, limitsCapped, cappedUser, MAX_SUGGESTIONS_PER_DAY,
    pyFloorDiv, pyMod]

/-- C3 counterexample: `update_post_status` called on post 1, whose
status is approved (not pending), returns True and overwrites the
status with rejected, so the store does not fail on a non-pending
submission and does not enforce the single-transition invariant. -/
theorem c3_counterexample_approved_overwritten :
    postsWithApproved 1 = some postApproved ∧
    postApproved.status = Status.approved ∧
    (update_post_status postsWithApproved 1 Status.rejected).2 = true ∧
    (update_post_status postsWithApproved 1 Status.rejected).1 1 =
      some { postApproved with status := Status.rejected } := by
  refine ⟨rfl, rfl, ?_, ?_⟩ <;>
    simp [update_post_status, postsWithApproved, postApproved, fupdate]

/-- C3 amended: `update_post_status` returns False exactly when the id
is absent from the store; when the id is present it overwrites the
status unconditionally (pending or not) and returns True — the
single-transition guard lives in the caller, not in the store. -/
theorem c3_amended_update_post_status_checks_presence_only
    (posts : Nat → Option Post) (post_id : Nat) (s : Status) :
    ((update_post_status posts post_id s).2 = false ↔ posts post_id = none) ∧
    (∀ p, posts post_id = some p →
      (update_post_status posts post_id s).2 = true ∧
      (update_post_status posts post_id s).1 post_id = some { p with status := s } ∧
      ∀ k, k ≠ post_id → (update_post_status posts post_id s).1 k = posts k) := by
  cases h : posts post_id with
  | none => simp [update_post_status, h]
  | some p =>
    refine ⟨by simp [update_post_status, h], ?_⟩
    intro q hq
    have hpq : p = q := Option.some.inj hq
    subst hpq
    refine ⟨by simp [update_post_status, h], by simp [update_post_status, h, fupdate], ?_⟩
    intro k hk
    simp [update_post_status, h, fupdate, hk]

/-- Witness for the amended C3 theorem at a concrete store. -/
theorem c3_amended_witness :
    (update_post_status postsWithApproved 1 Status.approved).2 = true ∧
    (update_post_status postsWithApproved 1 Status.approved).1 1 =
      some { postApproved with status := Status.approved } :=
  ⟨((c3_amended_update_post_status_checks_presence_only postsWithApproved 1
      Status.approved).2 postApproved rfl).1,
   ((c3_amended_update_post_status_checks_presence_only postsWithApproved 1
      Status.approved).2 postApproved rfl).2.1⟩

/-- C9: `add_pending_post` is a plain dict assignment, so creating a
submission under an id already present silently replaces the stored
record — whatever its status — with a fresh record whose status is
pending; nothing else changes and the call cannot fail. -/
theorem c9_add_pending_post_overwrites
    (posts : Nat → Option Post) (post_id : Nat) (r : Post) (user_id : Nat)
    (username : String) (media_ids : List String) (media_type : MediaType)
    (caption : Option String) (media_group_id : Option String)
    (original_message_id : Option Nat) (now : ℚ)
    (_h : posts post_id = some r) :
    add_pending_post posts post_id user_id username media_ids media_type caption
        media_group_id original_message_id now post_id =
      some { user_id := user_id, username := username, media_ids := media_ids,
             media_type := media_type, caption := caption, timestamp := now,
             media_group_id := media_group_id,
             original_message_id := original_message_id,
             status := Status.pending } ∧
    ∀ k, k ≠ post_id →
      add_pending_post posts post_id user_id username media_ids media_type caption
        media_group_id original_message_id now k = posts k := by
  constructor
  · simp [add_pending_post, fupdate]
  · intro k hk
    simp [add_pending_post, fupdate, hk]

/-- Witness for C9: the approved post 1 is replaced by a pending one. -/
theorem c9_witness :
    add_pending_post postsWithApproved 1 8 "erin" ["f9"] MediaType.video none none
        (some 3) 200 1 =
      some { user_id := 8, username := "erin", media_ids := ["f9"],
             media_type := MediaType.video, caption := none, timestamp := 200,
             media_group_id := none, original_message_id := some 3,
             status := Status.pending } :=
  (c9_add_pending_post_overwrites postsWithApproved 1 postApproved 8 "erin" ["f9"]
    MediaType.video none none (some 3) 200 rfl).1

/-- C10: with an existing quota record the stats dict carries a
"suggestions_remaining" key equal to max(0, cap - suggestions_today);
with no record it is the four all-zero counters and the key is absent. -/
theorem c10_get_user_stats_remaining_key
    (limits : Nat → Option UserLimits) (user_id : Nat) :
    (∀ u, limits user_id = some u →
      (get_user_stats limits user_id).lookup "suggestions_remaining" =
        some (max 0 (MAX_SUGGESTIONS_PER_DAY - u.suggestions_today))) ∧
    (limits user_id = none →
      get_user_stats limits user_id =
        [("suggestions_today", 0), ("total_suggestions", 0),
         ("approved_suggestions", 0), ("rejected_suggestions", 0)] ∧
      (get_user_stats limits user_id).lookup "suggestions_remaining" = none) := by
  constructor
  · intro u hu
    simp [get_user_stats, hu, List.lookup]
  · intro h
    refine ⟨by simp [get_user_stats, h], ?_⟩
    simp [get_user_stats, h, List.lookup]

/-- Witness for C10 in both branches, at user 7 (capped, remaining 0)
and at a user with no record. -/
theorem c10_witness :
    (get_user_stats limitsCapped 7).lookup "suggestions_remaining" =
      some (max 0 (MAX_SUGGESTIONS_PER_DAY - cappedUser.suggestions_today)) ∧
    (get_user_stats emptyLimits 9).lookup "suggestions_remaining" = none :=
  ⟨(c10_get_user_stats_remaining_key limitsCapped 7).1 cappedUser rfl,
   ((c10_get_user_stats_remaining_key emptyLimits 9).2 rfl).2⟩

/-- A stored post occupying id 1000. -/
def oldPost : Post :=
  { user_id := 3
    username := "bob"
    media_ids := ["oldfile"]
    media_type := MediaType.video
    caption := none
    timestamp := 0
    media_group_id := none
    original_message_id := none
    status := Status.approved }

/-- pending_posts holding only post 1000. -/
def postsWithThousand : Nat → Option Post :=
  fun k => if k = 1000 then some oldPost else none

/-- Manager state with post 1000 stored and no quota records. -/
def stThousand : ModState :=
  { posts := postsWithThousand, limits := emptyLimits }

/-- C7 counterexample: the id is `int(time.time()*1000) % 1000000000`,
not a fresh id. A submission admitted at time 1 gets id 1000, which the
store already holds, and the existing (approved) record is silently
replaced — so a submission-creating operation can assign an id equal to
one already present. -/
theorem c7_counterexample_id_collision :
    gen_post_id 1 = 1000 ∧
    stThousand.posts (gen_post_id 1) = some oldPost ∧
    oldPost.status = Status.approved ∧
    (handle_user_suggestion_single stThousand 3 "bob" MediaType.photo "newfile"
        none 9 1).1.posts 1000 =
      some { user_id := 3, username := "bob", media_ids := ["newfile"],
             media_type := MediaType.photo, caption := none, timestamp := 1,
             media_group_id := none, original_message_id := some 9,
             status := Status.pending } := by
  have hid : gen_post_id 1 = 1000 := by
    norm_num [gen_post_id]
    rfl
  refine ⟨hid, by simp [hid, stThousand, postsWithThousand], rfl, ?_⟩
  simp [handle_user_suggestion_single, can_suggest, emptyLimits, stThousand,
    add_pending_post, fupdate, hid]

/-- C7 amended: when the rate-limit gate passes, the single-media intake
always persists the new submission with status pending, at the
time-derived id `gen_post_id now`, overwriting whatever record already
holds that id; ids are therefore distinct from all stored ids only when
no stored submission shares the time-derived value. -/
theorem c7_amended_time_derived_id_pending
    (st : ModState) (user_id : Nat) (username : String) (media_type : MediaType)
    (file_id : String) (caption : Option String) (message_id : Nat) (now : ℚ)
    (h : (can_suggest st.limits user_id now).1 = true) :
    (handle_user_suggestion_single st user_id username media_type file_id caption
        message_id now).2.1 = true ∧
    (handle_user_suggestion_single st user_id username media_type file_id caption
        message_id now).1.posts (gen_post_id now) =
      some { user_id := user_id, username := username, media_ids := [file_id],
             media_type := media_type, caption := caption, timestamp := now,
             media_group_id := none, original_message_id := some message_id,
             status := Status.pending } ∧
    ∀ k, k ≠ gen_post_id now →
      (handle_user_suggestion_single st user_id username media_type file_id caption
        message_id now).1.posts k = st.posts k := by
  refine ⟨by simp [handle_user_suggestion_single, h],
    by simp [handle_user_suggestion_single, h, add_pending_post, fupdate], ?_⟩
  intro k hk
  simp [handle_user_suggestion_single, h, add_pending_post, fupdate, hk]

/-- Witness for the amended C7 theorem: a first-time submitter at
time 10 gets a pending post stored under `gen_post_id 10`. -/
theorem c7_amended_witness :
    (handle_user_suggestion_single { posts := emptyPosts, limits := emptyLimits }
        4 "fay" MediaType.audio "fa" none 1 10).1.posts (gen_post_id 10) =
      some { user_id := 4, username := "fay", media_ids := ["fa"],
             media_type := MediaType.audio, caption := none, timestamp := 10,
             media_group_id := none, original_message_id := some 1,
             status := Status.pending } :=
  (c7_amended_time_derived_id_pending { posts := emptyPosts, limits := emptyLimits }
    4 "fay" MediaType.audio "fa" none 1 10 rfl).2.1

/-- C2: resolving a pending submission performs exactly one status
transition and one outcome record, publishes exactly once when the
first decision is approve and never otherwise, and a second resolve of
the same id — any decision — changes nothing, publishes nothing and is
answered "already been (status)"; resolving an absent id changes
nothing and is answered "no longer exists". -/
theorem c2_resolve_idempotent (st : ModState) (post_id : Nat) (d1 d2 : Decision) :
    (st.posts post_id = none →
      process_suggestion_action st d1 post_id = (st, ResolveResult.notFound, 0)) ∧
    (∀ p, st.posts post_id = some p → p.status = Status.pending →
      (process_suggestion_action st d1 post_id).1.posts post_id =
        some { p with status := decisionStatus d1 } ∧
      (∀ k, k ≠ post_id →
        (process_suggestion_action st d1 post_id).1.posts k = st.posts k) ∧
      (process_suggestion_action st d1 post_id).1.limits =
        record_suggestion_result st.limits p.user_id (d1 = Decision.approve) ∧
      (process_suggestion_action st d1 post_id).2.1 = ResolveResult.resolved d1 ∧
      (process_suggestion_action st d1 post_id).2.2 =
        (if d1 = Decision.approve then 1 else 0) ∧
      process_suggestion_action (process_suggestion_action st d1 post_id).1 d2 post_id =
        ((process_suggestion_action st d1 post_id).1,
         ResolveResult.alreadyResolved (decisionStatus d1), 0) ∧
      (process_suggestion_action st d1 post_id).2.2 +
        (process_suggestion_action (process_suggestion_action st d1 post_id).1
          d2 post_id).2.2 =
        (if d1 = Decision.approve then 1 else 0)) := by
  constructor
  · intro h
    simp [process_suggestion_action, get_pending_post, h]
  · intro p hp hpend
    have hmain : process_suggestion_action st d1 post_id =
        ({ posts := (update_post_status st.posts post_id (decisionStatus d1)).1,
           limits := record_suggestion_result st.limits p.user_id
             (d1 = Decision.approve) },
         ResolveResult.resolved d1, if d1 = Decision.approve then 1 else 0) := by
      simp [process_suggestion_action, get_pending_post, hp, hpend]
    have hposts : (update_post_status st.posts post_id (decisionStatus d1)).1 post_id =
        some { p with status := decisionStatus d1 } := by
      simp [update_post_status, hp, fupdate]
    have hndps : decisionStatus d1 ≠ Status.pending := by
      cases d1 <;> simp [decisionStatus]
    have hsecond : process_suggestion_action
        (process_suggestion_action st d1 post_id).1 d2 post_id =
        ((process_suggestion_action st d1 post_id).1,
         ResolveResult.alreadyResolved (decisionStatus d1), 0) := by
      rw [hmain]
      simp [process_suggestion_action, get_pending_post, hposts, hndps]
    refine ⟨by rw [hmain]; exact hposts, ?_, by rw [hmain], by rw [hmain],
      by rw [hmain], hsecond, ?_⟩
    · intro k hk
      rw [hmain]
      simp [update_post_status, hp, fupdate, hk]
    · rw [hsecond, hmain]
      simp

/-- A pending post stored under id 5. -/
def pendingPost : Post :=
  { user_id := 11
    username := "carol"
    media_ids := ["fX"]
    media_type := MediaType.photo
    caption := some "hi"
    timestamp := 50
    media_group_id := none
    original_message_id := some 2
    status := Status.pending }

/-- Manager state with the single pending post 5. -/
def stPending : ModState :=
  { posts := fun k => if k = 5 then some pendingPost else none
    limits := emptyLimits }

/-- Witness for C2: approve then reject on post 5 — one transition, one
publish, second call a reported no-op. -/
theorem c2_witness :
    (process_suggestion_action stPending Decision.approve 5).1.posts 5 =
      some { pendingPost with status := decisionStatus Decision.approve } ∧
    (process_suggestion_action stPending Decision.approve 5).2.2 +
      (process_suggestion_action
        (process_suggestion_action stPending Decision.approve 5).1
        Decision.reject 5).2.2 =
      (if Decision.approve = Decision.approve then 1 else 0) ∧
    process_suggestion_action (process_suggestion_action stPending Decision.approve 5).1
        Decision.reject 5 =
      ((process_suggestion_action stPending Decision.approve 5).1,
       ResolveResult.alreadyResolved (decisionStatus Decision.approve), 0) := by
  have h := (c2_resolve_idempotent stPending 5 Decision.approve Decision.reject).2
    pendingPost rfl rfl
  exact ⟨h.1, h.2.2.2.2.2.2, h.2.2.2.2.2.1⟩

/-- A transport where chat 1 is unreachable and everything else works. -/
def trDown1 : Transport :=
  { okMessage := fun a => if a = 1 then false else true
    okMedia := fun _ => true }

/-- C4 counterexample: dispatching a new submission to reviewers 1 and
2, where reviewer 1 is unreachable, raises out of the dispatch loop:
the error propagates and reviewer 2 — perfectly deliverable on its
own — receives no delivery attempt, contradicting the claim that a
transport failure for one reviewer is logged and the loop continues. -/
theorem c4_counterexample_dispatch_aborts :
    send_post_to_admin trDown1 2 = Except.ok [Delivery.info 2, Delivery.media 2] ∧
    dispatch_to_admins trDown1 [1, 2] = Except.error () := by
  constructor <;> rfl

/-- C4 amended: only the media send inside `send_post_to_admin` is
guarded by try/except (its failure is logged and a fallback message is
sent instead), so when the plain-message transport works for every
reviewer the dispatch loop reaches all of them even if every media send
fails; but a failure of the unguarded info-message send propagates and
aborts the remaining deliveries (as the counterexample shows). -/
theorem c4_amended_media_failures_tolerated (tr : Transport) (admins : List Nat)
    (h : ∀ a ∈ admins, tr.okMessage a = true) :
    ∃ ds, dispatch_to_admins tr admins = Except.ok ds ∧
      ∀ a ∈ admins, Delivery.info a ∈ ds ∧
        (Delivery.media a ∈ ds ∨ Delivery.fallbackNote a ∈ ds) := by
  induction admins with
  | nil => exact ⟨[], rfl, by simp⟩
  | cons a rest ih =>
    have ha : tr.okMessage a = true := h a (List.mem_cons_self a rest)
    obtain ⟨ds, hds, hmem⟩ := ih (fun b hb => h b (List.mem_cons_of_mem a hb))
    by_cases hm : tr.okMedia a = true
    · refine ⟨[Delivery.info a, Delivery.media a] ++ ds, ?_, ?_⟩
      · simp [dispatch_to_admins, send_post_to_admin, ha, hm, hds]
      · intro b hb
        rcases List.mem_cons.mp hb with hb | hb
        · subst hb
          exact ⟨by simp, Or.inl (by simp)⟩
        · exact ⟨List.mem_append_right _ (hmem b hb).1,
            (hmem b hb).2.elim (fun hx => Or.inl (List.mem_append_right _ hx))
              (fun hx => Or.inr (List.mem_append_right _ hx))⟩
    · have hm' : tr.okMedia a = false := by
        cases hx : tr.okMedia a
        · rfl
        · exact absurd hx hm
      refine ⟨[Delivery.info a, Delivery.fallbackNote a] ++ ds, ?_, ?_⟩
      · simp [dispatch_to_admins, send_post_to_admin, ha, hm', hds]
      · intro b hb
        rcases List.mem_cons.mp hb with hb | hb
        · subst hb
          exact ⟨by simp, Or.inr (by simp)⟩
        · exact ⟨List.mem_append_right _ (hmem b hb).1,
            (hmem b hb).2.elim (fun hx => Or.inl (List.mem_append_right _ hx))
              (fun hx => Or.inr (List.mem_append_right _ hx))⟩

/-- A transport where messages always work but the media send to chat 3
fails. -/
def trMediaDown3 : Transport :=
  { okMessage := fun _ => true
    okMedia := fun a => if a = 3 then false else true }

/-- Witness for the amended C4 theorem: with the media send to reviewer
3 failing, both reviewers 2 and 3 still get delivery attempts. -/
theorem c4_amended_witness :
    ∃ ds, dispatch_to_admins trMediaDown3 [2, 3] = Except.ok ds ∧
      ∀ a ∈ [2, 3], Delivery.info a ∈ ds ∧
        (Delivery.media a ∈ ds ∨ Delivery.fallbackNote a ∈ ds) :=
  c4_amended_media_failures_tolerated trMediaDown3 [2, 3] (fun _ _ => rfl)

/-- Admission times produced by repeatedly running the check-then-record
rate-limit gate of handle_user_suggestion (bot.py lines 1389-1395) for
one user at the given attempt times: an attempt time is kept exactly
when `can_suggest` allows it, in which case `record_suggestion` runs. -/
def admitTimes (limits : Nat → Option UserLimits) (user_id : Nat) :
    List ℚ → List ℚ
  | [] => []
  | t :: ts =>
    if (can_suggest limits user_id t).1 then
      t :: admitTimes (record_suggestion limits user_id t) user_id ts
    else
      admitTimes limits user_id ts

/-- record_suggestion always leaves a record for the user. -/
theorem record_suggestion_isSome (limits : Nat → Option UserLimits) (user_id : Nat)
    (now : ℚ) :
    (record_suggestion limits user_id now user_id).isSome = true := by
  cases h : limits user_id <;> simp [record_suggestion, h, fupdate]

/-- The record left by record_suggestion has last_suggestion_time equal
to the recording time. -/
theorem record_suggestion_last (limits : Nat → Option UserLimits) (user_id : Nat)
    (now : ℚ) :
    ∀ u1, record_suggestion limits user_id now user_id = some u1 →
      u1.last_suggestion_time = now := by
  intro u1 h1
  cases h : limits user_id with
  | none =>
    simp only [record_suggestion, h, fupdate, if_pos] at h1
    have h2 := Option.some.inj h1
    subst h2
    rfl
  | some u =>
    simp only [record_suggestion, h, fupdate, if_pos] at h1
    have h2 := Option.some.inj h1
    subst h2
    rfl

/-- If can_suggest passes for a user with a record, the attempt is at
least the cooldown after the recorded last suggestion time. -/
theorem can_suggest_gap (limits : Nat → Option UserLimits) (user_id : Nat)
    (now : ℚ) (u : UserLimits) (hu : limits user_id = some u)
    (h : (can_suggest limits user_id now).1 = true) :
    u.last_suggestion_time + SUGGESTION_COOLDOWN_SECONDS ≤ now := by
  rw [can_suggest, hu] at h
  by_cases hcap : u.suggestions_today ≥ MAX_SUGGESTIONS_PER_DAY
  · simp [hcap] at h
  · by_cases hcd : now - u.last_suggestion_time < SUGGESTION_COOLDOWN_SECONDS
    · simp [hcap, hcd] at h
    · linarith [not_lt.mp hcd]

/-- Every time admitted after a record whose last_suggestion_time is t0
is at least the cooldown later than t0. -/
theorem admitTimes_lower_bound (user_id : Nat) :
    ∀ (ts : List ℚ) (limits : Nat → Option UserLimits) (u : UserLimits),
      limits user_id = some u →
      ∀ t ∈ admitTimes limits user_id ts,
        u.last_suggestion_time + SUGGESTION_COOLDOWN_SECONDS ≤ t := by
  intro ts
  induction ts with
  | nil => intro limits u _ t ht; simp [admitTimes] at ht
  | cons t0 ts ih =>
    intro limits u hu t ht
    rw [admitTimes] at ht
    by_cases hc : (can_suggest limits user_id t0).1 = true
    · rw [if_pos hc] at ht
      rcases List.mem_cons.mp ht with h | h
      · subst h
        exact can_suggest_gap limits user_id t u hu hc
      · obtain ⟨u1, hu1⟩ := Option.isSome_iff_exists.mp
          (record_suggestion_isSome limits user_id t0)
        have hlast := record_suggestion_last limits user_id t0 u1 hu1
        have := ih (record_suggestion limits user_id t0) u1 hu1 t h
        rw [hlast] at this
        have hgap := can_suggest_gap limits user_id t0 u hu hc
        have hcd : (0 : ℚ) < SUGGESTION_COOLDOWN_SECONDS := by
          norm_num [SUGGESTION_COOLDOWN_SECONDS]
        linarith
    · rw [if_neg hc] at ht
      exact ih limits u hu t ht

/-- Consecutive admitted times are separated by at least the cooldown
(stated as an ordered pairwise bound, all pairs included). -/
theorem admitTimes_pairwise (user_id : Nat) :
    ∀ (ts : List ℚ) (limits : Nat → Option UserLimits),
      (admitTimes limits user_id ts).Pairwise
        (fun a b => a + SUGGESTION_COOLDOWN_SECONDS ≤ b) := by
  intro ts
  induction ts with
  | nil => intro limits; simp [admitTimes]
  | cons t0 ts ih =>
    intro limits
    rw [admitTimes]
    by_cases hc : (can_suggest limits user_id t0).1 = true
    · rw [if_pos hc]
      refine List.Pairwise.cons ?_ (ih _)
      intro b hb
      obtain ⟨u1, hu1⟩ := Option.isSome_iff_exists.mp
        (record_suggestion_isSome limits user_id t0)
      have hlast := record_suggestion_last limits user_id t0 u1 hu1
      have := admitTimes_lower_bound user_id ts
        (record_suggestion limits user_id t0) u1 hu1 b hb
      rw [hlast] at this
      exact this
    · rw [if_neg hc]
      exact ih limits

/-- C8: (1) over any sequence of attempts, the check-then-record gate
admits timestamps that are pairwise at least the cooldown apart — in
particular two admitted submissions of one user are never closer than
the cooldown; (2) an attempt within the cooldown of the recorded last
suggestion is refused, and (when the user is under the daily cap) the
refusal reason is the cooldown reason whose minute/second fields are
the floor decomposition of the exact remaining wait time. -/
theorem c8_cooldown_enforced :
    (∀ (limits : Nat → Option UserLimits) (user_id : Nat) (ts : List ℚ),
      (admitTimes limits user_id ts).Pairwise
        (fun a b => a + SUGGESTION_COOLDOWN_SECONDS ≤ b)) ∧
    (∀ (limits : Nat → Option UserLimits) (user_id : Nat) (now : ℚ) (u : UserLimits),
      limits user_id = some u →
      now - u.last_suggestion_time < SUGGESTION_COOLDOWN_SECONDS →
      (can_suggest limits user_id now).1 = false ∧
      (u.suggestions_today < MAX_SUGGESTIONS_PER_DAY →
        ∃ m s, (can_suggest limits user_id now).2 = Reason.cooldown m s ∧
          (m : ℚ) * 60 + (s : ℚ) ≤
            SUGGESTION_COOLDOWN_SECONDS - (now - u.last_suggestion_time) ∧
          SUGGESTION_COOLDOWN_SECONDS - (now - u.last_suggestion_time) <
            (m : ℚ) * 60 + (s : ℚ) + 1)) := by
  constructor
  · intro limits user_id ts
    exact admitTimes_pairwise user_id ts limits
  · intro limits user_id now u hu hlt
    constructor
    · rw [can_suggest, hu]
      by_cases hcap : u.suggestions_today ≥ MAX_SUGGESTIONS_PER_DAY
      · simp [hcap]
      · simp [hcap, hlt]
    · intro hcap
      have hcap' : ¬ u.suggestions_today ≥ MAX_SUGGESTIONS_PER_DAY := not_le.mpr hcap
      refine ⟨pyFloorDiv (SUGGESTION_COOLDOWN_SECONDS - (now - u.last_suggestion_time)) 60,
        Int.floor (pyMod (SUGGESTION_COOLDOWN_SECONDS - (now - u.last_suggestion_time)) 60),
        ?_, ?_, ?_⟩
      · rw [can_suggest, hu]
        simp [hcap', hlt]
      · unfold pyFloorDiv pyMod
        have h2 := Int.floor_le ((SUGGESTION_COOLDOWN_SECONDS -
          (now - u.last_suggestion_time)) - 60 *
          ((Int.floor ((SUGGESTION_COOLDOWN_SECONDS - (now - u.last_suggestion_time)) / 60)) : ℚ))
        have h1 := Int.floor_le ((SUGGESTION_COOLDOWN_SECONDS -
          (now - u.last_suggestion_time)) / 60)
        linarith
      · unfold pyFloorDiv pyMod
        have h3 := Int.lt_floor_add_one ((SUGGESTION_COOLDOWN_SECONDS -
          (now - u.last_suggestion_time)) - 60 *
          ((Int.floor ((SUGGESTION_COOLDOWN_SECONDS - (now - u.last_suggestion_time)) / 60)) : ℚ))
        linarith

/-- A quota record with one suggestion recorded at time 10. -/
def cooldownUser : UserLimits :=
  { suggestions_today := 1
    last_suggestion_time := 10
    day_start := 0
    total_suggestions := 1
    approved_suggestions := 0
    rejected_suggestions := 0 }

/-- user_limits holding only user 9, who last submitted at time 10. -/
def limitsCooldown : Nat → Option UserLimits :=
  fun u => if u = 9 then some cooldownUser else none

/-- Witness for C8 at a concrete state: user 9 attempting again at time
11 (1 second after the last admitted submission) is refused with a
cooldown reason bounding the 1-second remaining wait. -/
theorem c8_witness :
    (admitTimes limitsCooldown 9 [11, 13]).Pairwise
      (fun a b => a + SUGGESTION_COOLDOWN_SECONDS ≤ b) ∧
    (can_suggest limitsCooldown 9 11).1 = false ∧
    (∃ m s, (can_suggest limitsCooldown 9 11).2 = Reason.cooldown m s ∧
      (m : ℚ) * 60 + (s : ℚ) ≤
        SUGGESTION_COOLDOWN_SECONDS - ((11 : ℚ) - cooldownUser.last_suggestion_time) ∧
      SUGGESTION_COOLDOWN_SECONDS - ((11 : ℚ) - cooldownUser.last_suggestion_time) <
        (m : ℚ) * 60 + (s : ℚ) + 1) := by
  have h := c8_cooldown_enforced.2 limitsCooldown 9 11 cooldownUser rfl
    (by norm_num [cooldownUser, SUGGESTION_COOLDOWN_SECONDS])
  exact ⟨c8_cooldown_enforced.1 limitsCooldown 9 [11, 13], h.1,
    h.2 (by norm_num [cooldownUser, MAX_SUGGESTIONS_PER_DAY])⟩

/-- Lookup misses when the key is absent. -/
theorem clookup_eq_none (col : List (String × GroupBuf)) (g : String)
    (h : g ∉ col.map Prod.fst) : clookup col g = none := by
  induction col with
  | nil => rfl
  | cons kv r ih =>
    obtain ⟨k, w⟩ := kv
    simp only [List.map_cons, List.mem_cons] at h
    push_neg at h
    show (if k = g then some w else clookup r g) = none
    rw [if_neg (fun hk : k = g => h.1 hk.symm)]
    exact ih h.2

/-- Assignment followed by lookup of the same key. -/
theorem clookup_cinsert_self (col : List (String × GroupBuf)) (g : String)
    (v : GroupBuf) : clookup (cinsert col g v) g = some v := by
  induction col with
  | nil => simp [cinsert, clookup]
  | cons kv r ih =>
    obtain ⟨k, w⟩ := kv
    by_cases hk : k = g
    · subst hk
      simp [cinsert, clookup]
    · simp [cinsert, clookup, hk, ih]

/-- With unique keys, deleting a key right after assigning it leaves no
entry for that key. -/
theorem clookup_cremove_cinsert (col : List (String × GroupBuf)) (g : String)
    (v : GroupBuf) (hnd : (col.map Prod.fst).Nodup) :
    clookup (cremove (cinsert col g v) g) g = none := by
  induction col with
  | nil => simp [cinsert, cremove, clookup]
  | cons kv r ih =>
    obtain ⟨k, w⟩ := kv
    simp only [List.map_cons, List.nodup_cons] at hnd
    by_cases hk : k = g
    · subst hk
      simp [cinsert, cremove]
      exact clookup_eq_none r k hnd.1
    · simp only [cinsert, cremove, if_neg hk]
      show (if k = g then some w else clookup (cremove (cinsert r g v) g) g) = none
      rw [if_neg hk]
      exact ih hnd.2

/-- A not-yet-finalized two-photo buffer of user 7 under group key g. -/
def bufG : GroupBuf :=
  { user_id := 7
    username := "dave"
    media_ids := ["a", "b"]
    media_type := MediaType.photo
    caption := none
    last_update := 100
    first_message_id := some 4
    complete := false }

/-- Aggregator state: group g buffered, user 7 at the daily cap. -/
def stAgg5 : AggState :=
  { collector := [("g", bufG)]
    posts := emptyPosts
    limits := limitsCapped }

/-- C5 counterexample: when the rate-limit re-check at finalization
fails, handle_complete_media_group returns before the `del`, so the
group key is NOT removed from the active collector set — the buffer
stays there forever, merely marked complete. -/
theorem c5_counterexample_blocked_buffer_not_removed :
    (handle_complete_media_group stAgg5 "g" 101).2 =
      HandleResult.limitBlocked (Reason.dailyLimit 23 58) ∧
    clookup (handle_complete_media_group stAgg5 "g" 101).1.collector "g" =
      some { bufG with complete := true } := by
  have hcs : can_suggest limitsCapped 7 101 = (false, Reason.dailyLimit 23 58) := by
    norm_num [can_suggest, limitsCapped, cappedUser, MAX_SUGGESTIONS_PER_DAY,
      pyFloorDiv, pyMod]
  constructor <;>
    simp [handle_complete_media_group, stAgg5, clookup, cinsert, bufG, hcs]

/-- C5 amended: finalization of a group key processes (charges quota,
creates the submission, notifies) at most once — any second invocation,
whether from the sweep or another trigger, is a state-preserving no-op
— and the key is removed from the collector exactly when the rate-limit
re-check passes; when the re-check fails the buffer remains in the
collector, marked complete, and the posts store is untouched. -/
theorem c5_amended_finalize_at_most_once
    (st : AggState) (gid : String) (now now' : ℚ) (gd : GroupBuf)
    (hnd : (st.collector.map Prod.fst).Nodup)
    (h1 : clookup st.collector gid = some gd)
    (h2 : gd.complete = false) :
    ((handle_complete_media_group (handle_complete_media_group st gid now).1
        gid now').1 = (handle_complete_media_group st gid now).1 ∧
      ∀ pid, (handle_complete_media_group (handle_complete_media_group st gid now).1
        gid now').2 ≠ HandleResult.processed pid) ∧
    ((can_suggest st.limits gd.user_id now).1 = true →
      clookup (handle_complete_media_group st gid now).1.collector gid = none ∧
      (handle_complete_media_group st gid now).2 =
        HandleResult.processed (gen_post_id now)) ∧
    ((can_suggest st.limits gd.user_id now).1 = false →
      clookup (handle_complete_media_group st gid now).1.collector gid =
        some { gd with complete := true } ∧
      (handle_complete_media_group st gid now).1.posts = st.posts ∧
      (handle_complete_media_group st gid now).2 =
        HandleResult.limitBlocked (can_suggest st.limits gd.user_id now).2) := by
  cases hc : (can_suggest st.limits gd.user_id now).1 with
  | false =>
    have hr1 : handle_complete_media_group st gid now =
        ({ st with collector :=
            cinsert st.collector gid { gd with complete := true } },
         HandleResult.limitBlocked (can_suggest st.limits gd.user_id now).2) := by
      simp [handle_complete_media_group, h1, h2, hc]
    have hlook : clookup (cinsert st.collector gid { gd with complete := true }) gid =
        some { gd with complete := true } := clookup_cinsert_self _ _ _
    refine ⟨⟨?_, ?_⟩, fun ht => absurd ht (by simp), fun _ => ⟨by rw [hr1]; exact hlook, by rw [hr1], by rw [hr1]⟩⟩
    · rw [hr1]
      simp [handle_complete_media_group, hlook]
    · intro pid
      rw [hr1]
      simp [handle_complete_media_group, hlook]
  | true =>
    have hr1 : handle_complete_media_group st gid now =
        ({ collector := cremove (cinsert st.collector gid { gd with complete := true }) gid
           posts := add_pending_post st.posts (gen_post_id now) gd.user_id gd.username
             gd.media_ids gd.media_type gd.caption (some gid) gd.first_message_id now
           limits := record_suggestion st.limits gd.user_id now },
         HandleResult.processed (gen_post_id now)) := by
      simp [handle_complete_media_group, h1, h2, hc]
    have hlook : clookup (cremove (cinsert st.collector gid
        { gd with complete := true }) gid) gid = none :=
      clookup_cremove_cinsert st.collector gid _ hnd
    refine ⟨⟨?_, ?_⟩, fun _ => ⟨by rw [hr1]; exact hlook, by rw [hr1]⟩,
      fun hf => absurd hf (by simp)⟩
    · rw [hr1]
      simp [handle_complete_media_group, hlook]
    · intro pid
      rw [hr1]
      simp [handle_complete_media_group, hlook]

/-- Witness for the amended C5 theorem at the concrete blocked state:
the buffer survives in the collector and a second invocation changes
nothing. -/
theorem c5_amended_witness :
    clookup (handle_complete_media_group stAgg5 "g" 101).1.collector "g" =
      some { bufG with complete := true } ∧
    (handle_complete_media_group (handle_complete_media_group stAgg5 "g" 101).1
      "g" 102).1 = (handle_complete_media_group stAgg5 "g" 101).1 := by
  have hcs : (can_suggest stAgg5.limits bufG.user_id 101).1 = false := by
    norm_num [can_suggest, stAgg5, limitsCapped, cappedUser, bufG,
      MAX_SUGGESTIONS_PER_DAY, pyFloorDiv, pyMod]
  have h := c5_amended_finalize_at_most_once stAgg5 "g" 101 102 bufG
    (by simp [stAgg5]) rfl rfl
  exact ⟨(h.2.2 hcs).1, h.1.1⟩

/-- A not-yet-finalized buffer, as created and updated by
process_media_group. -/
def mkBuf (user_id : Nat) (username : String) (media_ids : List String)
    (media_type : MediaType) (caption : Option String) (last_update : ℚ)
    (first_message_id : Option Nat) : GroupBuf :=
  { user_id := user_id
    username := username
    media_ids := media_ids
    media_type := media_type
    caption := caption
    last_update := last_update
    first_message_id := first_message_id
    complete := false }

/-- Arrival time of the last part, or the supplied default when no part
arrived. -/
def lastT (tl : ℚ) (ps : List (ℚ × String)) : ℚ :=
  match ps.getLast? with
  | none => tl
  | some x => x.1

/-- lastT discards the default as soon as one part is present. -/
theorem lastT_cons (tl : ℚ) (x : ℚ × String) (ps : List (ℚ × String)) :
    lastT tl (x :: ps) = lastT x.1 ps := by
  cases ps with
  | nil => rfl
  | cons y ys =>
    unfold lastT
    rw [List.getLast?_cons_cons]
    cases hg : (y :: ys).getLast? with
    | none => exact absurd (List.getLast?_eq_none_iff.mp hg) (by simp)
    | some z => rfl

/-- A cleanup pass over the empty collector does nothing. -/
theorem sweep_step_nil (p0 : Nat → Option Post) (l0 : Nat → Option UserLimits)
    (s : ℚ) : sweep_step { collector := [], posts := p0, limits := l0 } s =
      { collector := [], posts := p0, limits := l0 } := rfl

/-- A cleanup pass within the quiet period of the buffered group leaves
the state unchanged. -/
theorem sweep_step_singleton_quiet (gid : String) (buf : GroupBuf)
    (p0 : Nat → Option Post) (l0 : Nat → Option UserLimits) (s : ℚ)
    (h : s - buf.last_update ≤ 2) :
    sweep_step { collector := [(gid, buf)], posts := p0, limits := l0 } s =
      { collector := [(gid, buf)], posts := p0, limits := l0 } := by
  have hd : decide (2 < s - buf.last_update) = false := decide_eq_false (not_lt.2 h)
  simp [sweep_step, hd]

/-- A cleanup pass after the quiet period of a not-yet-finalized
buffered group finalizes exactly that group. -/
theorem sweep_step_singleton_due (gid : String) (buf : GroupBuf)
    (p0 : Nat → Option Post) (l0 : Nat → Option UserLimits) (s : ℚ)
    (hc : buf.complete = false) (h : s - buf.last_update > 2) :
    sweep_step { collector := [(gid, buf)], posts := p0, limits := l0 } s =
      (handle_complete_media_group
        { collector := [(gid, buf)], posts := p0, limits := l0 } gid s).1 := by
  have hd : decide (2 < s - buf.last_update) = true := decide_eq_true h
  simp [sweep_step, hd, hc]

/-- Unfolding one event of a run. -/
theorem runEvents_cons (user_id : Nat) (username : String) (media_group_id : String)
    (media_type : MediaType) (st : AggState) (e : Ev) (rest : List Ev) :
    runEvents user_id username media_group_id media_type st (e :: rest) =
      runEvents user_id username media_group_id media_type
        (stepEv user_id username media_group_id media_type st e) rest := rfl

/-- A part with a fresh file id appended to the singleton buffer. -/
theorem step_part_singleton (uid : Nat) (un gid : String) (mt : MediaType)
    (mids : List String) (c : Option String) (tl : ℚ) (m : Option Nat)
    (p0 : Nat → Option Post) (l0 : Nat → Option UserLimits)
    (t : ℚ) (f : String) (cap : Option String) (msg : Nat)
    (hf : f ∉ mids) :
    stepEv uid un gid mt
      { collector := [(gid, mkBuf uid un mids mt c tl m)], posts := p0, limits := l0 }
      (Ev.groupPart t f cap msg) =
    { collector := [(gid, mkBuf uid un (mids ++ [f]) mt
        (if cap.isSome ∧ c = none then cap else c) t m)],
      posts := p0, limits := l0 } := by
  by_cases hcap : cap.isSome ∧ c = none
  · simp [stepEv, process_media_group, clookup, cinsert, mkBuf, hf, hcap]
  · simp [stepEv, process_media_group, clookup, cinsert, mkBuf, hf, hcap]

/-- The first part of a group creates its buffer. -/
theorem step_part_create (uid : Nat) (un gid : String) (mt : MediaType)
    (p0 : Nat → Option Post) (l0 : Nat → Option UserLimits)
    (t : ℚ) (f : String) (cap : Option String) (msg : Nat) :
    stepEv uid un gid mt { collector := [], posts := p0, limits := l0 }
      (Ev.groupPart t f cap msg) =
    { collector := [(gid, mkBuf uid un [f] mt cap t (some msg))],
      posts := p0, limits := l0 } := by
  cases cap <;> simp [stepEv, process_media_group, clookup, cinsert, mkBuf]

/-- Running a well-timed trace against a buffered group: every part is
appended in arrival order, cleanup passes inside the quiet period do
nothing, and neither the posts store nor the quota records change. -/
theorem c6_run (uid : Nat) (un gid : String) (mt : MediaType)
    (p0 : Nat → Option Post) (l0 : Nat → Option UserLimits) :
    ∀ (trace : List Ev) (mids : List String) (tl : ℚ) (c : Option String)
      (m : Option Nat),
    TraceOk (some tl) trace →
    (∀ x ∈ partsOf trace, x.2 ∉ mids) →
    ((partsOf trace).map Prod.snd).Nodup →
    ∃ c1, runEvents uid un gid mt
        { collector := [(gid, mkBuf uid un mids mt c tl m)],
          posts := p0, limits := l0 } trace =
      { collector := [(gid, mkBuf uid un (mids ++ (partsOf trace).map Prod.snd)
          mt c1 (lastT tl (partsOf trace)) m)], posts := p0, limits := l0 } := by
  intro trace
  induction trace with
  | nil =>
    intro mids tl c m _ _ _
    exact ⟨c, by simp [runEvents, partsOf, lastT]⟩
  | cons e rest ih =>
    intro mids tl c m hok hnotin hnd
    cases e with
    | sweep s =>
      have hok' : s - tl ≤ 2 ∧ TraceOk (some tl) rest := hok
      have hstep : stepEv uid un gid mt
          { collector := [(gid, mkBuf uid un mids mt c tl m)],
            posts := p0, limits := l0 } (Ev.sweep s) =
          { collector := [(gid, mkBuf uid un mids mt c tl m)],
            posts := p0, limits := l0 } :=
        sweep_step_singleton_quiet gid (mkBuf uid un mids mt c tl m) p0 l0 s hok'.1
      obtain ⟨c1, hc1⟩ := ih mids tl c m hok'.2 hnotin hnd
      refine ⟨c1, ?_⟩
      rw [runEvents_cons, hstep]
      exact hc1
    | groupPart t f cap msg =>
      have hok' : tl ≤ t ∧ t - tl < 2 ∧ TraceOk (some t) rest := hok
      have hf : f ∉ mids := hnotin (t, f) (List.mem_cons_self _ _)
      have hnd' : f ∉ (partsOf rest).map Prod.snd ∧
          ((partsOf rest).map Prod.snd).Nodup := by
        have h0 : ((partsOf (Ev.groupPart t f cap msg :: rest)).map Prod.snd).Nodup :=
          hnd
        simp only [partsOf, List.map_cons, List.nodup_cons] at h0
        exact h0
      have hnotin' : ∀ x ∈ partsOf rest, x.2 ∉ mids ++ [f] := by
        intro x hx
        have h1 : x.2 ∉ mids := hnotin x (List.mem_cons_of_mem _ hx)
        have h2 : x.2 ≠ f := by
          intro hxf
          exact hnd'.1 (hxf ▸ List.mem_map_of_mem Prod.snd hx)
        simp [List.mem_append, h1, h2]
      obtain ⟨c1, hc1⟩ := ih (mids ++ [f]) t
        (if cap.isSome ∧ c = none then cap else c) m hok'.2.2 hnotin' hnd'.2
      refine ⟨c1, ?_⟩
      rw [runEvents_cons, step_part_singleton uid un gid mt mids c tl m p0 l0
        t f cap msg hf, hc1]
      simp [partsOf, lastT_cons, List.append_assoc]

/-- Running a well-timed trace from the empty collector: the first part
creates the buffer and the rest aggregate into it. -/
theorem c6_run0 (uid : Nat) (un gid : String) (mt : MediaType)
    (p0 : Nat → Option Post) (l0 : Nat → Option UserLimits) :
    ∀ (trace : List Ev),
    TraceOk none trace →
    ((partsOf trace).map Prod.snd).Nodup →
    partsOf trace ≠ [] →
    ∃ c1 m1, runEvents uid un gid mt
        { collector := [], posts := p0, limits := l0 } trace =
      { collector := [(gid, mkBuf uid un ((partsOf trace).map Prod.snd) mt c1
          (lastT 0 (partsOf trace)) m1)], posts := p0, limits := l0 } := by
  intro trace
  induction trace with
  | nil => intro _ _ hne; exact absurd rfl hne
  | cons e rest ih =>
    intro hok hnd hne
    cases e with
    | sweep s =>
      rw [runEvents_cons]
      rw [show stepEv uid un gid mt
          { collector := [], posts := p0, limits := l0 } (Ev.sweep s) =
          { collector := [], posts := p0, limits := l0 } from rfl]
      exact ih hok hnd hne
    | groupPart t f cap msg =>
      have hnd' : f ∉ (partsOf rest).map Prod.snd ∧
          ((partsOf rest).map Prod.snd).Nodup := by
        have h0 : ((partsOf (Ev.groupPart t f cap msg :: rest)).map Prod.snd).Nodup :=
          hnd
        simp only [partsOf, List.map_cons, List.nodup_cons] at h0
        exact h0
      have hnotin : ∀ x ∈ partsOf rest, x.2 ∉ [f] := by
        intro x hx
        simp only [List.mem_singleton]
        intro hxf
        exact hnd'.1 (hxf ▸ List.mem_map_of_mem Prod.snd hx)
      obtain ⟨c1, hc1⟩ := c6_run uid un gid mt p0 l0 rest [f] t cap (some msg)
        hok hnotin hnd'.2
      refine ⟨c1, some msg, ?_⟩
      rw [runEvents_cons, step_part_create uid un gid mt p0 l0 t f cap msg, hc1]
      simp [partsOf, lastT_cons]

/-- endsWithPart is inherited by a nonempty tail. -/
theorem endsWithPart_tail (e : Ev) (rest : List Ev)
    (h : endsWithPart (e :: rest) = true) (hne : rest ≠ []) :
    endsWithPart rest = true := by
  cases rest with
  | nil => exact absurd rfl hne
  | cons e2 r2 => cases e <;> exact h

/-- A trace ending in a part has at least one part. -/
theorem partsOf_ne_nil (trace : List Ev) (h : endsWithPart trace = true) :
    partsOf trace ≠ [] := by
  induction trace with
  | nil => simp [endsWithPart] at h
  | cons e rest ih =>
    cases e with
    | groupPart t f cap msg => simp [partsOf]
    | sweep s =>
      cases rest with
      | nil => simp [endsWithPart] at h
      | cons e2 r2 =>
        show partsOf (e2 :: r2) ≠ []
        exact ih h

/-- The head of partsOf comes from an actual part event of the trace. -/
theorem partsOf_head_mem (trace : List Ev) (t : ℚ) (f : String)
    (h : (partsOf trace).head? = some (t, f)) :
    ∃ cap msg, Ev.groupPart t f cap msg ∈ trace := by
  induction trace with
  | nil => simp [partsOf] at h
  | cons e rest ih =>
    cases e with
    | groupPart t0 f0 cap msg =>
      have h0 : ((t0, f0) :: partsOf rest).head? = some (t, f) := h
      have h1 : (t0, f0) = (t, f) := by
        simpa using h0
      exact ⟨cap, msg, by rw [show t = t0 from (Prod.mk.injEq _ _ _ _ |>.mp h1).1.symm,
        show f = f0 from (Prod.mk.injEq _ _ _ _ |>.mp h1).2.symm]; exact List.mem_cons_self _ _⟩
    | sweep s =>
      obtain ⟨cap, msg, hm⟩ := ih h
      exact ⟨cap, msg, List.mem_cons_of_mem _ hm⟩

/-- From a time-sorted trace that ends with a part, whose part arrivals
are within the quiet period of each other (including the gap from the
given start time), the timing discipline TraceOk follows. -/
theorem traceOk_some :
    ∀ (trace : List Ev) (tl : ℚ),
    trace.Pairwise (fun a b => evTime a ≤ evTime b) →
    (∀ e, trace.head? = some e → tl ≤ evTime e) →
    endsWithPart trace = true →
    List.Chain' (fun a b => b - a < 2) (tl :: (partsOf trace).map Prod.fst) →
    TraceOk (some tl) trace := by
  intro trace
  induction trace with
  | nil => intro tl _ _ _ _; trivial
  | cons e rest ih =>
    intro tl hpw hhead hend hchain
    obtain ⟨hpw1, hpw2⟩ := List.pairwise_cons.mp hpw
    cases e with
    | groupPart t f cap msg =>
      have htl : tl ≤ t := hhead _ rfl
      have hchain2 : List.Chain' (fun a b => b - a < 2)
          (tl :: t :: (partsOf rest).map Prod.fst) := hchain
      have hgap : t - tl < 2 := (List.chain'_cons.mp hchain2).1
      show tl ≤ t ∧ t - tl < 2 ∧ TraceOk (some t) rest
      refine ⟨htl, hgap, ?_⟩
      cases rest with
      | nil => trivial
      | cons e2 r2 =>
        refine ih t hpw2 ?_ (endsWithPart_tail _ _ hend (by simp)) ?_
        · intro e' he'
          have he2 : e2 = e' := by simpa using he'
          cases he2
          exact hpw1 e2 (List.mem_cons_self _ _)
        · exact (List.chain'_cons.mp hchain2).2
    | sweep s =>
      have htls : tl ≤ s := hhead _ rfl
      have hrne : rest ≠ [] := by
        cases rest with
        | nil => simp [endsWithPart] at hend
        | cons e2 r2 => simp
      have hendr : endsWithPart rest = true := endsWithPart_tail _ _ hend hrne
      have hpne : partsOf rest ≠ [] := partsOf_ne_nil rest hendr
      obtain ⟨x, hx⟩ : ∃ x, (partsOf rest).head? = some x := by
        cases hps : partsOf rest with
        | nil => exact absurd hps hpne
        | cons y ys => exact ⟨y, rfl⟩
      obtain ⟨t1, f1⟩ := x
      obtain ⟨cap1, msg1, hmem⟩ := partsOf_head_mem rest t1 f1 hx
      have hst1 : s ≤ t1 := hpw1 _ hmem
      have hchain2 : List.Chain' (fun a b => b - a < 2)
          (tl :: (partsOf rest).map Prod.fst) := hchain
      have ht1tl : t1 - tl < 2 := by
        cases hps : partsOf rest with
        | nil => exact absurd hps hpne
        | cons y ys =>
          rw [hps] at hx
          have hy : y = (t1, f1) := by simpa using hx
          subst hy
          rw [hps] at hchain2
          exact (List.chain'_cons.mp hchain2).1
      show s - tl ≤ 2 ∧ TraceOk (some tl) rest
      refine ⟨by linarith, ?_⟩
      refine ih tl hpw2 ?_ hendr hchain2
      intro e' he'
      have he'mem : e' ∈ rest := List.mem_of_mem_head? he'
      have h2 : s ≤ evTime e' := hpw1 e' he'mem
      linarith

/-- Same derivation, starting before the first part arrives. -/
theorem traceOk_none :
    ∀ (trace : List Ev),
    trace.Pairwise (fun a b => evTime a ≤ evTime b) →
    endsWithPart trace = true →
    List.Chain' (fun a b => b - a < 2) ((partsOf trace).map Prod.fst) →
    TraceOk none trace := by
  intro trace
  induction trace with
  | nil => intro _ _ _; trivial
  | cons e rest ih =>
    intro hpw hend hchain
    obtain ⟨hpw1, hpw2⟩ := List.pairwise_cons.mp hpw
    cases e with
    | sweep s =>
      show TraceOk none rest
      have hrne : rest ≠ [] := by
        cases rest with
        | nil => simp [endsWithPart] at hend
        | cons e2 r2 => simp
      exact ih hpw2 (endsWithPart_tail _ _ hend hrne) hchain
    | groupPart t f cap msg =>
      show TraceOk (some t) rest
      cases rest with
      | nil => trivial
      | cons e2 r2 =>
        refine traceOk_some (e2 :: r2) t hpw2 ?_
          (endsWithPart_tail _ _ hend (by simp)) ?_
        · intro e' he'
          have he2 : e2 = e' := by simpa using he'
          cases he2
          exact hpw1 e2 (List.mem_cons_self _ _)
        · exact hchain

/-- C6: (i) a part repeating an already-buffered content reference adds
nothing to the buffer's media_ids (idempotent add); (ii) for parts
P1..Pn with distinct file ids sharing one media_group_id, arriving in
time order with each part less than the quiet period (2s) after the
previous one (cleanup passes interleaved anywhere), a finalizing
cleanup pass more than the quiet period after the last part — with the
submitter passing the rate-limit re-check and the time-derived post id
unused — creates exactly one pending submission whose media_ids are the
n file ids in arrival order, stores nothing else, and removes the group
from the collector. -/
theorem c6_group_aggregation :
    (∀ (col : List (String × GroupBuf)) (uid : Nat) (un gid : String)
       (mt : MediaType) (buf : GroupBuf) (f : String) (msg : Option Nat)
       (cap : Option String) (t : ℚ),
      clookup col gid = some buf → f ∈ buf.media_ids →
      ∃ b1, (process_media_group col uid un gid mt f msg cap t).1 =
          cinsert col gid b1 ∧ b1.media_ids = buf.media_ids) ∧
    (∀ (uid : Nat) (un gid : String) (mt : MediaType)
       (p0 : Nat → Option Post) (l0 : Nat → Option UserLimits)
       (trace : List Ev) (T : ℚ),
      trace.Pairwise (fun a b => evTime a ≤ evTime b) →
      endsWithPart trace = true →
      List.Chain' (fun a b => b.1 - a.1 < 2) (partsOf trace) →
      ((partsOf trace).map Prod.snd).Nodup →
      (∀ x, (partsOf trace).getLast? = some x → T - x.1 > 2) →
      (can_suggest l0 uid T).1 = true →
      p0 (gen_post_id T) = none →
      (∃ c1 m1, (stepEv uid un gid mt
          (runEvents uid un gid mt
            { collector := [], posts := p0, limits := l0 } trace)
          (Ev.sweep T)).posts (gen_post_id T) =
        some { user_id := uid, username := un,
               media_ids := (partsOf trace).map Prod.snd, media_type := mt,
               caption := c1, timestamp := T, media_group_id := some gid,
               original_message_id := m1, status := Status.pending }) ∧
      (∀ k, k ≠ gen_post_id T →
        (stepEv uid un gid mt
          (runEvents uid un gid mt
            { collector := [], posts := p0, limits := l0 } trace)
          (Ev.sweep T)).posts k = p0 k) ∧
      clookup (stepEv uid un gid mt
        (runEvents uid un gid mt
          { collector := [], posts := p0, limits := l0 } trace)
        (Ev.sweep T)).collector gid = none) := by
  constructor
  · intro col uid un gid mt buf f msg cap t h1 h2
    by_cases hcap : cap.isSome ∧ buf.caption = none
    · exact ⟨{ buf with last_update := t, caption := cap },
        by simp [process_media_group, h1, h2, hcap], rfl⟩
    · exact ⟨{ buf with last_update := t },
        by simp [process_media_group, h1, h2, hcap], rfl⟩
  · intro uid un gid mt p0 l0 trace T hpw hend hchain hnd hlast hcsT hfresh
    have hok : TraceOk none trace :=
      traceOk_none trace hpw hend ((List.chain'_map Prod.fst).mpr hchain)
    have hpne : partsOf trace ≠ [] := partsOf_ne_nil trace hend
    obtain ⟨c1, m1, hrun⟩ := c6_run0 uid un gid mt p0 l0 trace hok hnd hpne
    have hTl : T - lastT 0 (partsOf trace) > 2 := by
      cases hps : (partsOf trace).getLast? with
      | none => exact absurd (List.getLast?_eq_none_iff.mp hps) hpne
      | some x =>
        have hx := hlast x hps
        simpa [lastT, hps] using hx
    have hsw : stepEv uid un gid mt
        { collector := [(gid, mkBuf uid un ((partsOf trace).map Prod.snd) mt c1
            (lastT 0 (partsOf trace)) m1)], posts := p0, limits := l0 }
        (Ev.sweep T) =
        (handle_complete_media_group
          { collector := [(gid, mkBuf uid un ((partsOf trace).map Prod.snd) mt c1
              (lastT 0 (partsOf trace)) m1)], posts := p0, limits := l0 }
          gid T).1 :=
      sweep_step_singleton_due gid _ p0 l0 T rfl hTl
    have hh : handle_complete_media_group
        { collector := [(gid, mkBuf uid un ((partsOf trace).map Prod.snd) mt c1
            (lastT 0 (partsOf trace)) m1)], posts := p0, limits := l0 } gid T =
        ({ collector := []
           posts := add_pending_post p0 (gen_post_id T) uid un
             ((partsOf trace).map Prod.snd) mt c1 (some gid) m1 T
           limits := record_suggestion l0 uid T },
         HandleResult.processed (gen_post_id T)) := by
      simp [handle_complete_media_group, clookup, cinsert, cremove, mkBuf, hcsT]
    rw [hrun, hsw, hh]
    refine ⟨⟨c1, m1, ?_⟩, ?_, ?_⟩
    · simp [add_pending_post, fupdate]
    · intro k hk
      simp [add_pending_post, fupdate, hk]
    · rfl

/-- A concrete two-part group: parts at times 0 and 1 with a cleanup
pass in between, finalized at time 4. -/
def c6trace : List Ev :=
  [Ev.groupPart 0 "a" none 1, Ev.sweep 1, Ev.groupPart 1 "b" none 2]

/-- Witness for C6: the trace of two parts plus an interleaved cleanup
pass yields, after the finalizing pass at time 4, one pending post with
media ids ["a", "b"] and an empty collector. -/
theorem c6_witness :
    (∃ c1 m1, (stepEv 5 "gina" "G" MediaType.photo
        (runEvents 5 "gina" "G" MediaType.photo
          { collector := [], posts := emptyPosts, limits := emptyLimits } c6trace)
        (Ev.sweep 4)).posts (gen_post_id 4) =
      some { user_id := 5, username := "gina",
             media_ids := (partsOf c6trace).map Prod.snd,
             media_type := MediaType.photo, caption := c1, timestamp := 4,
             media_group_id := some "G", original_message_id := m1,
             status := Status.pending }) ∧
    clookup (stepEv 5 "gina" "G" MediaType.photo
      (runEvents 5 "gina" "G" MediaType.photo
        { collector := [], posts := emptyPosts, limits := emptyLimits } c6trace)
      (Ev.sweep 4)).collector "G" = none := by
  have hpw : c6trace.Pairwise (fun a b => evTime a ≤ evTime b) := by
    norm_num [c6trace, List.pairwise_cons, evTime]
  have hend : endsWithPart c6trace = true := rfl
  have hchain : List.Chain' (fun a b => b.1 - a.1 < 2) (partsOf c6trace) := by
    norm_num [c6trace, partsOf, List.chain'_cons, List.chain'_singleton]
  have hnd : ((partsOf c6trace).map Prod.snd).Nodup := by
    simp [c6trace, partsOf]
  have hlast : ∀ x, (partsOf c6trace).getLast? = some x → (4 : ℚ) - x.1 > 2 := by
    intro x hx
    simp only [c6trace, partsOf, List.getLast?_cons_cons,
      List.getLast?_singleton, Option.some.injEq] at hx
    rw [← hx]
    norm_num
  have h := c6_group_aggregation.2 5 "gina" "G" MediaType.photo emptyPosts
    emptyLimits c6trace 4 hpw hend hchain hnd hlast rfl rfl
  exact ⟨h.1, h.2.2⟩
